import Mathlib

/-!
Shallow embedding of `src/main.js` (sales-bonus): the aggregation pipeline
`analyzeSalesData` together with the two default strategies
`calculateSimpleRevenue` and `calculateBonusByProfit`.

Modelling decisions, all taken from the JavaScript source:
* JavaScript numbers appearing in the input are modelled as `Option ℚ`:
  `none` is an absent (`undefined`) field.  JavaScript truthiness on the
  fields the code tests with `!x` is modelled by `truthyS` / `truthyQ`
  (absent, empty string and `0` are falsy).
* The accumulator field `revenue` is updated by
  `sellerStat.revenue += record.total_amount` where `total_amount` is never
  validated, so adding an absent value must produce `NaN`.  `JNum` is the
  rational numbers extended with an absorbing `nan` element, and
  `JNum.addOpt` is JavaScript `+` between such an accumulator and an
  optional field.  All other arithmetic in the pipeline happens after the
  involved fields passed a truthiness check, hence stays inside `ℚ`.
* JavaScript object indexes (`sellerIndex`, `productIndex`) are
  last-write-wins maps, modelled by `mkIndex`.
* `Array.prototype.sort` with comparator `(a, b) => b.profit - a.profit` is
  a stable descending sort by `profit`; it is modelled by
  `List.insertionSort profitGE`, which computes exactly the stable
  descending ordering.
* The `typeof options.calculateRevenue !== "function"` check cannot fail in
  a typed embedding (the two strategies are fields of `SalesOptions`), so
  it is omitted; every claim below concerns inputs where that check passes.
-/

namespace SalesBonus

/-- JavaScript number values reachable by the pipeline's accumulators:
either an actual (rational) number or `NaN`. -/
inductive JNum where
  | num (q : ℚ)
  | nan
deriving DecidableEq, Repr

/-- JavaScript `+` between an accumulator and an optional numeric field:
`x += undefined` yields `NaN`, and `NaN` is absorbing. -/
def JNum.addOpt : JNum → Option ℚ → JNum
  | JNum.num a, some b => JNum.num (a + b)
  | _, none => JNum.nan
  | JNum.nan, some _ => JNum.nan

/-- JavaScript truthiness of an optional string field (`!x` fails):
absent and `""` are falsy. -/
def truthyS : Option String → Bool
  | none => false
  | some s => decide (s ≠ "")

/-- JavaScript truthiness of an optional numeric field (`!x` fails):
absent and `0` are falsy. -/
def truthyQ : Option ℚ → Bool
  | none => false
  | some q => decide (q ≠ 0)

structure Seller where
  id : Option String
  first_name : Option String
  last_name : Option String
deriving DecidableEq, Repr

structure Product where
  sku : Option String
  purchase_price : Option ℚ
  sale_price : Option ℚ
deriving DecidableEq, Repr

structure Item where
  sku : Option String
  quantity : Option ℚ
  sale_price : Option ℚ
  discount : Option ℚ
deriving DecidableEq, Repr

structure PurchaseRecord where
  seller_id : Option String
  total_amount : Option ℚ
  items : Option (List Item)
deriving DecidableEq, Repr

structure SalesData where
  sellers : List Seller
  products : List Product
  purchase_records : List PurchaseRecord
deriving DecidableEq, Repr

/-- The object literal `{sale_price, quantity, discount}` handed to the
injected revenue strategy (all three fields passed a truthiness check or
were defaulted before the call). -/
structure ItemView where
  sale_price : ℚ
  quantity : ℚ
  discount : ℚ
deriving DecidableEq, Repr

/-- The per-seller accumulator created in the initialization phase. -/
structure SellerStat where
  id : Option String
  name : String
  revenue : JNum
  profit : ℚ
  sales_count : ℕ
  products_sold : List (String × ℚ)
  bonus : ℚ
  top_products : List (String × ℚ)
deriving DecidableEq, Repr

/-- The options object: the two injected strategies (modelled as total
functions, as the claims assume). -/
structure SalesOptions where
  calculateRevenue : ItemView → Product → ℚ
  calculateBonus : ℕ → ℕ → SellerStat → ℚ

/-- Embedding of `calculateSimpleRevenue` from `src/main.js`. -/
def calculateSimpleRevenue (purchase : ItemView) (_product : Product) : ℚ :=
  let discountFactor := 1 - purchase.discount / 100
  let revenue := purchase.sale_price * purchase.quantity * discountFactor
  revenue

/-- Embedding of `calculateBonusByProfit` from `src/main.js`: the
`if / else if` chain on the 0-based rank `index` out of `total`.
JavaScript evaluates `total - 1` in ℤ, hence the casts. -/
def calculateBonusByProfit (index : ℕ) (total : ℕ) (seller : SellerStat) : ℚ :=
  let profit := seller.profit
  let bonusPercentage : ℚ :=
    if index = 0 then 15 / 100
    else if index ≤ 2 ∧ index > 0 then 10 / 100
    else if (index : ℤ) < (total : ℤ) - 1 then 5 / 100
    else 0
  profit * bonusPercentage

/-- Validation: `data.sellers.some(s => !s.id || !s.first_name || !s.last_name)`. -/
def hasInvalidSellers (sellers : List Seller) : Bool :=
  sellers.any fun s => !truthyS s.id || !truthyS s.first_name || !truthyS s.last_name

/-- Validation: `data.products.some(p => !p.sku || !p.purchase_price || !p.sale_price)`. -/
def hasInvalidProducts (products : List Product) : Bool :=
  products.any fun p => !truthyS p.sku || !truthyQ p.purchase_price || !truthyQ p.sale_price

/-- Validation: a purchase record lacks `seller_id` or a non-empty `items` array. -/
def hasInvalidPurchases (records : List PurchaseRecord) : Bool :=
  records.any fun p => !truthyS p.seller_id || p.items.isNone || (p.items.getD []).isEmpty

/-- Validation: some item of some record lacks `sku`, `quantity` or `sale_price`
(truthiness checks, so `0` counts as missing). -/
def hasInvalidItems (records : List PurchaseRecord) : Bool :=
  records.any fun p => (p.items.getD []).any fun item =>
    !truthyS item.sku || !truthyQ item.quantity || !truthyQ item.sale_price

/-- A JavaScript object used as a dictionary: later assignments win. -/
def mkIndex {α : Type} (key : α → Option String) (l : List α) : String → Option α :=
  l.foldl (fun idx x => fun k => if key x = some k then some x else idx k) (fun _ => none)

/-- Index construction with the defensive re-checks of `src/main.js`
(lines 110–128); a failing check throws, caught and rethrown as a
structure error. -/
def buildIndexes (sellers : List Seller) (products : List Product) :
    Except String ((String → Option Seller) × (String → Option Product)) :=
  if sellers.any (fun s => !truthyS s.id || !truthyS s.first_name || !truthyS s.last_name) then
    Except.error "invalid data structure: seller required fields missing"
  else if products.any (fun p => !truthyS p.sku) then
    Except.error "invalid data structure: product required fields missing"
  else
    Except.ok (mkIndex Seller.id sellers, mkIndex Product.sku products)

/-- One zeroed accumulator per input seller, in input order
(`data.sellers.map(...)`, lines 130–139). -/
def initStats (sellers : List Seller) : List SellerStat :=
  sellers.map fun seller =>
    { id := seller.id
      name := seller.first_name.getD "undefined" ++ " " ++ seller.last_name.getD "undefined"
      revenue := JNum.num 0
      profit := 0
      sales_count := 0
      products_sold := []
      bonus := 0
      top_products := [] }

/-- The `products_sold` counter update: initialize the key to 0 if unseen,
then add the quantity (insertion-ordered, as a JS object with string keys). -/
def addQty (m : List (String × ℚ)) (sku : String) (q : ℚ) : List (String × ℚ) :=
  if m.any fun kv => kv.1 = sku then
    m.map fun kv => if kv.1 = sku then (kv.1, kv.2 + q) else kv
  else m ++ [(sku, q)]

/-- Embedding of the per-item body of the fold (lines 160–193): skip on a
falsy `sku`/`quantity`/`sale_price`, skip on an unknown sku, otherwise add
the item's profit and quantity to the accumulator. -/
def processItem (options : SalesOptions) (productIndex : String → Option Product)
    (stat : SellerStat) (item : Item) : SellerStat :=
  if !truthyS item.sku || !truthyQ item.quantity || !truthyQ item.sale_price then stat
  else
    match productIndex (item.sku.getD "") with
    | none => stat
    | some product =>
      let revenue := options.calculateRevenue
        { sale_price := item.sale_price.getD 0
          quantity := item.quantity.getD 0
          discount := item.discount.getD 0 } product
      let cost := product.purchase_price.getD 0 * item.quantity.getD 0
      let profit := revenue - cost
      { stat with
          profit := stat.profit + profit
          products_sold := addQty stat.products_sold (item.sku.getD "") (item.quantity.getD 0) }

/-- Mutating the first list element satisfying `p` (JavaScript
`array.find(...)` followed by in-place mutation); no match leaves the list
unchanged (`if (!sellerStat) return`). -/
def updateFirst {α : Type} (p : α → Bool) (f : α → α) : List α → List α
  | [] => []
  | x :: xs => if p x then f x :: xs else x :: updateFirst p f xs

/-- The mutation applied to the matched seller's accumulator for one record
(lines 157–193): add `total_amount` to revenue (unvalidated, so possibly
`NaN`), bump `sales_count`, then fold the record's items. -/
def recordUpdate (options : SalesOptions) (productIndex : String → Option Product)
    (record : PurchaseRecord) (stat : SellerStat) : SellerStat :=
  (record.items.getD []).foldl (processItem options productIndex)
    { stat with
        revenue := stat.revenue.addOpt record.total_amount
        sales_count := stat.sales_count + 1 }

/-- Embedding of the per-record body of the fold (lines 142–194): skip on a
falsy `seller_id` or absent `items`, skip on an unknown seller, otherwise
apply `recordUpdate` to the first accumulator with the seller's id. -/
def processRecord (options : SalesOptions) (sellerIndex : String → Option Seller)
    (productIndex : String → Option Product)
    (stats : List SellerStat) (record : PurchaseRecord) : List SellerStat :=
  if !truthyS record.seller_id || record.items.isNone then stats
  else
    match sellerIndex (record.seller_id.getD "") with
    | none => stats
    | some seller =>
      updateFirst (fun s => decide (s.id = seller.id))
        (recordUpdate options productIndex record) stats

/-- The comparator `(a, b) => b.profit - a.profit`: `a` sorts no later than
`b` exactly when `a.profit ≥ b.profit`. -/
def profitGE (a b : SellerStat) : Prop := b.profit ≤ a.profit

instance : DecidableRel profitGE := fun a b => inferInstanceAs (Decidable (b.profit ≤ a.profit))

instance : IsTotal SellerStat profitGE := ⟨fun a b => le_total b.profit a.profit⟩

instance : IsTrans SellerStat profitGE := ⟨fun _ _ _ h1 h2 => le_trans h2 h1⟩

/-- The comparator `(a, b) => b.quantity - a.quantity` on `products_sold`
entries. -/
def qtyGE (a b : String × ℚ) : Prop := b.2 ≤ a.2

instance : DecidableRel qtyGE := fun a b => inferInstanceAs (Decidable (b.2 ≤ a.2))

/-- Top-10 products: entries of `products_sold` sorted descending by
quantity (stable), first 10 (lines 204–207). -/
def topProducts (sold : List (String × ℚ)) : List (String × ℚ) :=
  (List.insertionSort qtyGE sold).take 10

/-- The per-seller mutation of the bonus-assignment loop (lines 200–208):
set `bonus` from the injected strategy at this rank and derive
`top_products`; every other field is untouched. -/
def bonusUpdate (options : SalesOptions) (total : ℕ) (is : ℕ × SellerStat) : SellerStat :=
  { is.2 with
      bonus := options.calculateBonus is.1 total is.2
      top_products := topProducts is.2.products_sold }

/-- Bonus assignment and `top_products` derivation over the ranked list
(lines 199–208): rank-indexed map, `total` is the list length. -/
def assignBonus (options : SalesOptions) (stats : List SellerStat) : List SellerStat :=
  let total := stats.length
  stats.enum.map (bonusUpdate options total)

/-- JavaScript `+x.toFixed(2)` on an actual number: round to 2 decimals,
ties picking the larger candidate. -/
def round2 (q : ℚ) : ℚ := (⌊q * 100 + 1 / 2⌋ : ℤ) / 100

/-- JavaScript `+x.toFixed(2)` on a `JNum`: `NaN` stays `NaN`. -/
def jround2 : JNum → JNum
  | JNum.num q => JNum.num (round2 q)
  | JNum.nan => JNum.nan

/-- One output record per seller (lines 211–219). -/
structure OutputRecord where
  seller_id : Option String
  name : String
  revenue : JNum
  profit : ℚ
  sales_count : ℕ
  top_products : List (String × ℚ)
  bonus : ℚ
deriving DecidableEq, Repr

def formatStat (s : SellerStat) : OutputRecord :=
  { seller_id := s.id
    name := s.name
    revenue := jround2 s.revenue
    profit := round2 s.profit
    sales_count := s.sales_count
    top_products := s.top_products
    bonus := round2 s.bonus }

/-- The accumulation phase of `analyzeSalesData`: fold every purchase
record into the zeroed accumulators, using the two indexes. -/
def accumulatedStats (data : SalesData) (options : SalesOptions) : List SellerStat :=
  data.purchase_records.foldl
    (processRecord options (mkIndex Seller.id data.sellers) (mkIndex Product.sku data.products))
    (initStats data.sellers)

/-- The ranking phase: stable descending sort by (unrounded) profit. -/
def rankedStats (data : SalesData) (options : SalesOptions) : List SellerStat :=
  List.insertionSort profitGE (accumulatedStats data options)

/-- The bonus-assignment phase applied after ranking. -/
def finalStats (data : SalesData) (options : SalesOptions) : List SellerStat :=
  assignBonus options (rankedStats data options)

/-- Combined validation outcome: `true` exactly when none of the three
`throw`ing checks of lines 47–93 fires. -/
def passesValidation (data : SalesData) : Bool :=
  !(data.sellers.isEmpty || data.products.isEmpty || data.purchase_records.isEmpty) &&
  !(hasInvalidSellers data.sellers || hasInvalidProducts data.products ||
    hasInvalidPurchases data.purchase_records) &&
  !hasInvalidItems data.purchase_records

/-- Embedding of `analyzeSalesData` (lines 45–220): validation, index
construction, accumulation, ranking, bonus assignment, formatting.  A
thrown error is an `Except.error`. -/
def analyzeSalesData (data : SalesData) (options : SalesOptions) :
    Except String (List OutputRecord) :=
  if data.sellers.isEmpty || data.products.isEmpty || data.purchase_records.isEmpty then
    Except.error "invalid input data: sellers, products and purchase_records must be non-empty arrays"
  else if hasInvalidSellers data.sellers || hasInvalidProducts data.products ||
      hasInvalidPurchases data.purchase_records then
    Except.error "invalid data structure: check required fields"
  else if hasInvalidItems data.purchase_records then
    Except.error "invalid items data: check sku, quantity and sale_price"
  else
    match buildIndexes data.sellers data.products with
    | Except.error e => Except.error e
    | Except.ok indexes =>
      let sellerStats := initStats data.sellers
      let folded := data.purchase_records.foldl (processRecord options indexes.1 indexes.2) sellerStats
      let sorted := List.insertionSort profitGE folded
      let final := assignBonus options sorted
      Except.ok (final.map formatStat)

/-! Generic lemmas about the list operations used by the pipeline. -/

theorem updateFirst_map_eq {α β : Type} (p : α → Bool) (f : α → α) (g : α → β)
    (hg : ∀ x, g (f x) = g x) (l : List α) : (updateFirst p f l).map g = l.map g := by
  induction l with
  | nil => rfl
  | cons x xs ih =>
    unfold updateFirst
    by_cases hp : p x = true
    · simp [hp, hg]
    · simp [hp, ih]

theorem updateFirst_eq_of_all_false {α : Type} (p : α → Bool) (f : α → α) (l : List α)
    (h : ∀ x ∈ l, p x = false) : updateFirst p f l = l := by
  induction l with
  | nil => rfl
  | cons x xs ih =>
    unfold updateFirst
    rw [h x (List.mem_cons_self x xs)]
    simp [ih fun y hy => h y (List.mem_cons_of_mem x hy)]

theorem mem_updateFirst {α : Type} (p : α → Bool) (f : α → α) (l : List α) (y : α)
    (hy : y ∈ updateFirst p f l) : y ∈ l ∨ ∃ x ∈ l, p x = true ∧ y = f x := by
  induction l with
  | nil => simp [updateFirst] at hy
  | cons x xs ih =>
    unfold updateFirst at hy
    by_cases hp : p x = true
    · rw [if_pos hp] at hy
      rcases List.mem_cons.mp hy with h | h
      · exact Or.inr ⟨x, List.mem_cons_self x xs, hp, h⟩
      · exact Or.inl (List.mem_cons_of_mem x h)
    · rw [if_neg hp] at hy
      rcases List.mem_cons.mp hy with h | h
      · exact Or.inl (h ▸ List.mem_cons_self x xs)
      · rcases ih h with h2 | ⟨z, hz, hpz, hyz⟩
        · exact Or.inl (List.mem_cons_of_mem x h2)
        · exact Or.inr ⟨z, List.mem_cons_of_mem x hz, hpz, hyz⟩

theorem find?_updateFirst_other {α : Type} (p q : α → Bool) (f : α → α) (l : List α)
    (hdisj : ∀ x, p x = true → q x = false) (hf : ∀ x, q (f x) = q x) :
    List.find? q (updateFirst p f l) = List.find? q l := by
  induction l with
  | nil => rfl
  | cons x xs ih =>
    unfold updateFirst
    by_cases hp : p x = true
    · rw [if_pos hp]
      have hqx : q x = false := hdisj x hp
      have hqfx : q (f x) = false := by rw [hf x, hqx]
      simp [List.find?, hqx, hqfx]
    · rw [if_neg hp]
      cases hq : q x
      · simp [List.find?, hq, ih]
      · simp [List.find?, hq]

theorem find?_updateFirst_self {α : Type} (q : α → Bool) (f : α → α) (l : List α)
    (hf : ∀ x, q (f x) = q x) :
    List.find? q (updateFirst q f l) = (List.find? q l).map f := by
  induction l with
  | nil => rfl
  | cons x xs ih =>
    unfold updateFirst
    by_cases hq : q x = true
    · rw [if_pos hq]
      have hqfx : q (f x) = true := by rw [hf x, hq]
      simp [List.find?, hqfx, hq]
    · rw [if_neg hq]
      have hq' : q x = false := by simpa using hq
      simp [List.find?, hq', ih]

theorem sum_map_updateFirst {α : Type} (p : α → Bool) (f : α → α) (g : α → ℕ) (l : List α)
    (hx : ∃ x ∈ l, p x = true) (hf : ∀ x, g (f x) = g x + 1) :
    ((updateFirst p f l).map g).sum = (l.map g).sum + 1 := by
  induction l with
  | nil => simp at hx
  | cons y ys ih =>
    unfold updateFirst
    by_cases hp : p y = true
    · rw [if_pos hp]
      simp only [List.map_cons, List.sum_cons, hf y]
      omega
    · rw [if_neg hp]
      rcases hx with ⟨x, hmem, hpx⟩
      rcases List.mem_cons.mp hmem with rfl | hmem2
      · exact absurd hpx hp
      · simp only [List.map_cons, List.sum_cons, ih ⟨x, hmem2, hpx⟩]
        omega

theorem foldIndex_some {α : Type} (key : α → Option String) (k : String) (x : α)
    (l : List α) :
    ∀ acc : String → Option α,
      (l.foldl (fun idx y => fun s => if key y = some s then some y else idx s) acc) k = some x →
      (x ∈ l ∧ key x = some k) ∨ acc k = some x := by
  induction l with
  | nil => intro acc h; exact Or.inr h
  | cons y ys ih =>
    intro acc h
    rcases ih _ h with ⟨hm, hk⟩ | hacc
    · exact Or.inl ⟨List.mem_cons_of_mem y hm, hk⟩
    · dsimp only at hacc
      by_cases hky : key y = some k
      · rw [if_pos hky] at hacc
        have hxy : y = x := Option.some_inj.mp hacc
        exact Or.inl ⟨hxy ▸ List.mem_cons_self y ys, hxy ▸ hky⟩
      · rw [if_neg hky] at hacc
        exact Or.inr hacc

theorem mkIndex_some {α : Type} (key : α → Option String) (l : List α) (k : String) (x : α)
    (h : mkIndex key l k = some x) : x ∈ l ∧ key x = some k := by
  unfold mkIndex at h
  rcases foldIndex_some key k x l _ h with hgood | hbad
  · exact hgood
  · exact absurd hbad (by simp)

/-! Field-preservation lemmas for the accumulation phase. -/

theorem processItem_preserves (o : SalesOptions) (pIdx : String → Option Product)
    (stat : SellerStat) (item : Item) :
    (processItem o pIdx stat item).id = stat.id ∧
    (processItem o pIdx stat item).sales_count = stat.sales_count ∧
    (processItem o pIdx stat item).revenue = stat.revenue ∧
    (processItem o pIdx stat item).name = stat.name := by
  unfold processItem
  split
  · exact ⟨rfl, rfl, rfl, rfl⟩
  · split
    · exact ⟨rfl, rfl, rfl, rfl⟩
    · exact ⟨rfl, rfl, rfl, rfl⟩

theorem foldl_processItem_preserves (o : SalesOptions) (pIdx : String → Option Product)
    (items : List Item) :
    ∀ stat : SellerStat,
      (items.foldl (processItem o pIdx) stat).id = stat.id ∧
      (items.foldl (processItem o pIdx) stat).sales_count = stat.sales_count ∧
      (items.foldl (processItem o pIdx) stat).revenue = stat.revenue ∧
      (items.foldl (processItem o pIdx) stat).name = stat.name := by
  induction items with
  | nil => intro stat; exact ⟨rfl, rfl, rfl, rfl⟩
  | cons it its ih =>
    intro stat
    have h1 := processItem_preserves o pIdx stat it
    have h2 := ih (processItem o pIdx stat it)
    exact ⟨h2.1.trans h1.1, h2.2.1.trans h1.2.1, h2.2.2.1.trans h1.2.2.1,
      h2.2.2.2.trans h1.2.2.2⟩

theorem recordUpdate_id (o : SalesOptions) (pIdx : String → Option Product)
    (r : PurchaseRecord) (x : SellerStat) :
    (recordUpdate o pIdx r x).id = x.id :=
  (foldl_processItem_preserves o pIdx (r.items.getD []) _).1

theorem recordUpdate_sales (o : SalesOptions) (pIdx : String → Option Product)
    (r : PurchaseRecord) (x : SellerStat) :
    (recordUpdate o pIdx r x).sales_count = x.sales_count + 1 :=
  (foldl_processItem_preserves o pIdx (r.items.getD []) _).2.1

theorem recordUpdate_revenue (o : SalesOptions) (pIdx : String → Option Product)
    (r : PurchaseRecord) (x : SellerStat) :
    (recordUpdate o pIdx r x).revenue = x.revenue.addOpt r.total_amount :=
  (foldl_processItem_preserves o pIdx (r.items.getD []) _).2.2.1

theorem processRecord_map_id (o : SalesOptions) (sIdx : String → Option Seller)
    (pIdx : String → Option Product) (stats : List SellerStat) (r : PurchaseRecord) :
    (processRecord o sIdx pIdx stats r).map SellerStat.id = stats.map SellerStat.id := by
  unfold processRecord
  split
  · rfl
  · split
    · rfl
    · exact updateFirst_map_eq _ _ SellerStat.id (recordUpdate_id o pIdx r) stats

theorem foldl_processRecord_map_id (o : SalesOptions) (sIdx : String → Option Seller)
    (pIdx : String → Option Product) (records : List PurchaseRecord) :
    ∀ stats : List SellerStat,
      (records.foldl (processRecord o sIdx pIdx) stats).map SellerStat.id =
        stats.map SellerStat.id := by
  induction records with
  | nil => intro stats; rfl
  | cons r rs ih =>
    intro stats
    exact (ih _).trans (processRecord_map_id o sIdx pIdx stats r)

theorem initStats_map_id (sellers : List Seller) :
    (initStats sellers).map SellerStat.id = sellers.map Seller.id := by
  unfold initStats
  rw [List.map_map]
  rfl

theorem accumulatedStats_map_id (d : SalesData) (o : SalesOptions) :
    (accumulatedStats d o).map SellerStat.id = d.sellers.map Seller.id := by
  unfold accumulatedStats
  rw [foldl_processRecord_map_id, initStats_map_id]

/-! Lemmas about validation and the success path of the pipeline. -/

theorem valid_components (d : SalesData) (h : passesValidation d = true) :
    (d.sellers.isEmpty || d.products.isEmpty || d.purchase_records.isEmpty) = false ∧
    hasInvalidSellers d.sellers = false ∧
    hasInvalidProducts d.products = false ∧
    hasInvalidPurchases d.purchase_records = false ∧
    hasInvalidItems d.purchase_records = false := by
  unfold passesValidation at h
  simp only [Bool.and_eq_true, Bool.not_eq_true', Bool.or_eq_false_iff] at h
  exact ⟨by rw [h.1.1.1.1, h.1.1.1.2, h.1.1.2]; rfl, h.1.2.1.1, h.1.2.1.2, h.1.2.2, h.2⟩

theorem buildIndexes_ok (sellers : List Seller) (products : List Product)
    (hs : hasInvalidSellers sellers = false) (hp : hasInvalidProducts products = false) :
    buildIndexes sellers products =
      Except.ok (mkIndex Seller.id sellers, mkIndex Product.sku products) := by
  have hs' : (sellers.any fun s =>
      !truthyS s.id || !truthyS s.first_name || !truthyS s.last_name) = false := hs
  have hp' : (products.any fun p => !truthyS p.sku) = false := by
    have hp2 : ∀ p ∈ products,
        (!truthyS p.sku || !truthyQ p.purchase_price || !truthyQ p.sale_price) = false := by
      have hh := hp
      unfold hasInvalidProducts at hh
      simp only [List.any_eq_false] at hh
      intro p hmem
      simpa using hh p hmem
    rw [List.any_eq_false]
    intro p hmem
    have := hp2 p hmem
    simp only [Bool.or_eq_false_iff] at this
    simp [this.1]
  unfold buildIndexes
  rw [hs', hp']
  rfl

theorem analyze_ok_of_valid (d : SalesData) (o : SalesOptions)
    (h : passesValidation d = true) :
    analyzeSalesData d o = Except.ok ((finalStats d o).map formatStat) := by
  obtain ⟨h1, h2, h3, h4, h5⟩ := valid_components d h
  simp only [analyzeSalesData, h1, h2, h3, h4, h5, Bool.or_self, Bool.false_eq_true,
    if_false, buildIndexes_ok d.sellers d.products h2 h3]
  rfl

/-! Stability of the profit sort: filtering on any fixed profit value
commutes with the sort, so equal-profit sellers keep their relative
order. -/

theorem filter_orderedInsert_profit (c : ℚ) (a : SellerStat) (l : List SellerStat) :
    (List.orderedInsert profitGE a l).filter (fun s => decide (s.profit = c)) =
      (a :: l).filter (fun s => decide (s.profit = c)) := by
  induction l with
  | nil => rfl
  | cons b t ih =>
    by_cases hab : profitGE a b
    · rw [List.orderedInsert_of_le profitGE t hab]
    · show (if profitGE a b then a :: b :: t else
        b :: List.orderedInsert profitGE a t).filter (fun s => decide (s.profit = c)) = _
      rw [if_neg hab]
      have hlt : a.profit < b.profit := lt_of_not_le hab
      by_cases hpb : b.profit = c
      · have hpa : ¬ a.profit = c := by
          intro hpa
          rw [hpa, hpb] at hlt
          exact lt_irrefl c hlt
        simp [List.filter_cons, hpa, hpb, ih]
      · simp [List.filter_cons, hpb, ih]

theorem filter_insertionSort_profit (c : ℚ) (l : List SellerStat) :
    (List.insertionSort profitGE l).filter (fun s => decide (s.profit = c)) =
      l.filter (fun s => decide (s.profit = c)) := by
  induction l with
  | nil => rfl
  | cons a t ih =>
    show (List.orderedInsert profitGE a (List.insertionSort profitGE t)).filter _ = _
    rw [filter_orderedInsert_profit c a (List.insertionSort profitGE t)]
    simp [List.filter_cons, ih]

/-! Shape lemmas for the bonus-assignment phase. -/

theorem assignBonus_length (o : SalesOptions) (l : List SellerStat) :
    (assignBonus o l).length = l.length := by
  unfold assignBonus
  simp

theorem assignBonus_get (o : SalesOptions) (l : List SellerStat) (i : ℕ)
    (h : i < (assignBonus o l).length) (h2 : i < l.length) :
    (assignBonus o l).get ⟨i, h⟩ = bonusUpdate o l.length (i, l.get ⟨i, h2⟩) := by
  unfold assignBonus
  simp [List.getElem_map, List.getElem_enum]

theorem assignBonus_map_field {β : Type} (o : SalesOptions) (l : List SellerStat)
    (g : SellerStat → β)
    (hg : ∀ i total s, g (bonusUpdate o total (i, s)) = g s) :
    (assignBonus o l).map g = l.map g := by
  unfold assignBonus
  rw [List.map_map]
  have hfun : g ∘ bonusUpdate o l.length = fun is : ℕ × SellerStat => g is.2 := by
    funext is
    exact hg is.1 l.length is.2
  rw [hfun]
  rw [show (fun is : ℕ × SellerStat => g is.2) = g ∘ Prod.snd from rfl]
  rw [← List.map_map, List.enum_map_snd]

/-! Counting matched purchase records: `sales_count` bookkeeping. -/

/-- A purchase record whose `seller_id` resolves in the seller index. -/
def matchedRecord (sIdx : String → Option Seller) (r : PurchaseRecord) : Bool :=
  (sIdx (r.seller_id.getD "")).isSome

theorem exists_mem_of_map_eq {α β : Type} {g : α → β} {l l' : List α}
    (h : l'.map g = l.map g) {x : α} (hx : x ∈ l) : ∃ y ∈ l', g y = g x := by
  have hmem : g x ∈ l.map g := List.mem_map_of_mem g hx
  rw [← h] at hmem
  rcases List.mem_map.mp hmem with ⟨y, hy, hgy⟩
  exact ⟨y, hy, hgy⟩

theorem record_fields_of_valid (records : List PurchaseRecord)
    (h : hasInvalidPurchases records = false) :
    ∀ r ∈ records, truthyS r.seller_id = true ∧ r.items.isNone = false ∧
      (r.items.getD []).isEmpty = false := by
  unfold hasInvalidPurchases at h
  simp only [List.any_eq_false] at h
  intro r hr
  have hthis := h r hr
  have h1 : (truthyS r.seller_id = true ∧ ¬r.items = none) ∧ ¬r.items.getD [] = [] := by
    simpa using hthis
  refine ⟨h1.1.1, ?_, ?_⟩
  · cases hi : r.items <;> simp_all
  · cases hl : r.items.getD [] <;> simp_all

theorem sum_sales_processRecord (o : SalesOptions) (sIdx : String → Option Seller)
    (pIdx : String → Option Product) (stats : List SellerStat) (r : PurchaseRecord)
    (hrec : truthyS r.seller_id = true ∧ r.items.isNone = false)
    (hcover : ∀ sel : Seller, sIdx (r.seller_id.getD "") = some sel →
      ∃ x ∈ stats, x.id = sel.id) :
    ((processRecord o sIdx pIdx stats r).map SellerStat.sales_count).sum =
      (stats.map SellerStat.sales_count).sum +
        (if matchedRecord sIdx r then 1 else 0) := by
  have hc : (!truthyS r.seller_id || r.items.isNone) = false := by
    rw [hrec.1, hrec.2]
    rfl
  unfold processRecord
  rw [hc]
  cases hlook : sIdx (r.seller_id.getD "") with
  | none =>
    simp [matchedRecord, hlook]
  | some sel =>
    obtain ⟨x, hx, hid⟩ := hcover sel hlook
    have hsum := sum_map_updateFirst (fun s => decide (s.id = sel.id))
      (recordUpdate o pIdx r)
      SellerStat.sales_count stats ⟨x, hx, by simp [hid]⟩
      (recordUpdate_sales o pIdx r)
    simp only [matchedRecord, hlook, Option.isSome_some, if_true]
    exact hsum

theorem cover_processRecord (o : SalesOptions) (sIdx : String → Option Seller)
    (pIdx : String → Option Product) (stats : List SellerStat) (r : PurchaseRecord)
    (hcover : ∀ (sel : Seller) (k : String), sIdx k = some sel → ∃ x ∈ stats, x.id = sel.id) :
    ∀ (sel : Seller) (k : String), sIdx k = some sel →
      ∃ x ∈ processRecord o sIdx pIdx stats r, x.id = sel.id := by
  intro sel k hsel
  obtain ⟨x, hx, hid⟩ := hcover sel k hsel
  obtain ⟨y, hy, hgy⟩ := exists_mem_of_map_eq (processRecord_map_id o sIdx pIdx stats r) hx
  exact ⟨y, hy, hgy.trans hid⟩

theorem sum_sales_foldl (o : SalesOptions) (sIdx : String → Option Seller)
    (pIdx : String → Option Product) (records : List PurchaseRecord) :
    ∀ stats : List SellerStat,
      (∀ r ∈ records, truthyS r.seller_id = true ∧ r.items.isNone = false) →
      (∀ (sel : Seller) (k : String), sIdx k = some sel → ∃ x ∈ stats, x.id = sel.id) →
      ((records.foldl (processRecord o sIdx pIdx) stats).map SellerStat.sales_count).sum =
        (stats.map SellerStat.sales_count).sum +
          (records.filter (matchedRecord sIdx)).length := by
  induction records with
  | nil =>
    intro stats _ _
    simp
  | cons r rs ih =>
    intro stats hrecs hcover
    have hstep := sum_sales_processRecord o sIdx pIdx stats r
      (⟨(hrecs r (List.mem_cons_self r rs)).1, (hrecs r (List.mem_cons_self r rs)).2⟩)
      (fun sel hsel => hcover sel _ hsel)
    rw [List.foldl_cons,
      ih _ (fun r2 h2 => hrecs r2 (List.mem_cons_of_mem r h2))
        (cover_processRecord o sIdx pIdx stats r hcover),
      hstep, List.filter_cons]
    rcases Bool.eq_false_or_eq_true (matchedRecord sIdx r) with hm | hm <;>
      simp [hm] <;> omega

theorem initStats_cover (sellers : List Seller) :
    ∀ (sel : Seller) (k : String), mkIndex Seller.id sellers k = some sel →
      ∃ x ∈ initStats sellers, x.id = sel.id := by
  intro sel k h
  obtain ⟨hmem, _⟩ := mkIndex_some Seller.id sellers k sel h
  exact ⟨_, List.mem_map_of_mem _ hmem, rfl⟩

theorem sum_sales_accumulated (d : SalesData) (o : SalesOptions)
    (h : hasInvalidPurchases d.purchase_records = false) :
    ((accumulatedStats d o).map SellerStat.sales_count).sum =
      (d.purchase_records.filter (matchedRecord (mkIndex Seller.id d.sellers))).length := by
  unfold accumulatedStats
  rw [sum_sales_foldl o (mkIndex Seller.id d.sellers) (mkIndex Product.sku d.products)
    d.purchase_records (initStats d.sellers)
    (fun r hr => ⟨(record_fields_of_valid d.purchase_records h r hr).1,
      (record_fields_of_valid d.purchase_records h r hr).2.1⟩)
    (initStats_cover d.sellers)]
  have hzero : (initStats d.sellers).map SellerStat.sales_count =
      d.sellers.map (fun _ => 0) := by
    unfold initStats
    rw [List.map_map]
    rfl
  rw [hzero]
  simp

theorem sum_sales_final (d : SalesData) (o : SalesOptions) :
    ((finalStats d o).map SellerStat.sales_count).sum =
      ((accumulatedStats d o).map SellerStat.sales_count).sum := by
  unfold finalStats
  rw [assignBonus_map_field o (rankedStats d o) SellerStat.sales_count (fun _ _ _ => rfl)]
  exact ((List.perm_insertionSort profitGE (accumulatedStats d o)).map
    SellerStat.sales_count).sum_eq

/-! Skipping behaviour of the accumulation phase. -/

theorem processRecord_unknown_seller (o : SalesOptions) (sIdx : String → Option Seller)
    (pIdx : String → Option Product) (stats : List SellerStat) (r : PurchaseRecord)
    (h : sIdx (r.seller_id.getD "") = none) :
    processRecord o sIdx pIdx stats r = stats := by
  unfold processRecord
  by_cases h1 : (!truthyS r.seller_id || r.items.isNone) = true
  · rw [if_pos h1]
  · rw [if_neg h1, h]

theorem processRecord_skip_invalid (o : SalesOptions) (sIdx : String → Option Seller)
    (pIdx : String → Option Product) (stats : List SellerStat) (r : PurchaseRecord)
    (h : (!truthyS r.seller_id || r.items.isNone) = true) :
    processRecord o sIdx pIdx stats r = stats := by
  unfold processRecord
  rw [if_pos h]

theorem processRecord_matched (o : SalesOptions) (sIdx : String → Option Seller)
    (pIdx : String → Option Product) (stats : List SellerStat) (r : PurchaseRecord)
    (sel : Seller) (h1 : (!truthyS r.seller_id || r.items.isNone) = false)
    (hlook : sIdx (r.seller_id.getD "") = some sel) :
    processRecord o sIdx pIdx stats r =
      updateFirst (fun s => decide (s.id = sel.id))
        (recordUpdate o pIdx r) stats := by
  unfold processRecord
  rw [h1, hlook]
  rfl

/-- An item that passes the row-level truthiness checks and matches a known
product, i.e. one the fold actually folds in. -/
def itemMatched (pIdx : String → Option Product) (item : Item) : Bool :=
  (truthyS item.sku && truthyQ item.quantity && truthyQ item.sale_price) &&
    (pIdx (item.sku.getD "")).isSome

theorem processItem_skip (o : SalesOptions) (pIdx : String → Option Product)
    (stat : SellerStat) (item : Item) (h : itemMatched pIdx item = false) :
    processItem o pIdx stat item = stat := by
  unfold itemMatched at h
  unfold processItem
  by_cases h1 : (!truthyS item.sku || !truthyQ item.quantity || !truthyQ item.sale_price) = true
  · rw [if_pos h1]
  · rw [if_neg h1]
    cases hlook : pIdx (item.sku.getD "") with
    | none => rfl
    | some product =>
      exfalso
      rw [hlook] at h
      have h1' : truthyS item.sku = true ∧ truthyQ item.quantity = true ∧
          truthyQ item.sale_price = true := by
        cases ha : truthyS item.sku <;> cases hb : truthyQ item.quantity <;>
          cases hc : truthyQ item.sale_price <;> simp [ha, hb, hc] at h1 ⊢
      rw [h1'.1, h1'.2.1, h1'.2.2] at h
      simp at h

theorem foldl_processItem_skip (o : SalesOptions) (pIdx : String → Option Product)
    (items : List Item) :
    (∀ it ∈ items, itemMatched pIdx it = false) →
    ∀ stat : SellerStat, items.foldl (processItem o pIdx) stat = stat := by
  induction items with
  | nil =>
    intro _ stat
    rfl
  | cons it its ih =>
    intro h stat
    rw [List.foldl_cons, processItem_skip o pIdx stat it (h it (List.mem_cons_self it its))]
    exact ih (fun x hx => h x (List.mem_cons_of_mem it hx)) stat

theorem recordUpdate_skip (o : SalesOptions) (pIdx : String → Option Product)
    (r : PurchaseRecord) (x : SellerStat)
    (h : ∀ it ∈ r.items.getD [], itemMatched pIdx it = false) :
    recordUpdate o pIdx r x =
      { x with
          revenue := x.revenue.addOpt r.total_amount
          sales_count := x.sales_count + 1 } := by
  unfold recordUpdate
  exact foldl_processItem_skip o pIdx (r.items.getD []) h _

/-! A seller none of whose purchase-record items match a known product keeps
zero profit and an empty `products_sold`. -/

theorem zero_profit_processRecord (o : SalesOptions) (sIdx : String → Option Seller)
    (pIdx : String → Option Product) (stats : List SellerStat) (r : PurchaseRecord)
    (targetId : Option String)
    (hrec : ∀ sel : Seller, sIdx (r.seller_id.getD "") = some sel → sel.id = targetId →
      ∀ it ∈ r.items.getD [], itemMatched pIdx it = false)
    (hinv : ∀ s ∈ stats, s.id = targetId → s.profit = 0 ∧ s.products_sold = []) :
    ∀ s ∈ processRecord o sIdx pIdx stats r, s.id = targetId →
      s.profit = 0 ∧ s.products_sold = [] := by
  intro s hs hid
  unfold processRecord at hs
  by_cases h1 : (!truthyS r.seller_id || r.items.isNone) = true
  · rw [if_pos h1] at hs
    exact hinv s hs hid
  · rw [if_neg h1] at hs
    cases hlook : sIdx (r.seller_id.getD "") with
    | none =>
      rw [hlook] at hs
      exact hinv s hs hid
    | some sel =>
      rw [hlook] at hs
      rcases mem_updateFirst _ _ _ s hs with hmem | ⟨x, hx, hpx, hfx⟩
      · exact hinv s hmem hid
      · have hxid : x.id = targetId := by
          have hsid : s.id = x.id := by
            rw [hfx]
            exact recordUpdate_id o pIdx r x
          rw [← hsid]
          exact hid
        have hselid : sel.id = targetId := by
          have hxe := of_decide_eq_true hpx
          rw [← hxe, hxid]
        have hupd := recordUpdate_skip o pIdx r x (hrec sel hlook hselid)
        rw [hfx, hupd]
        have hx0 := hinv x hx hxid
        exact ⟨hx0.1, hx0.2⟩

theorem zero_profit_foldl (o : SalesOptions) (sIdx : String → Option Seller)
    (pIdx : String → Option Product) (records : List PurchaseRecord)
    (targetId : Option String) :
    ∀ stats : List SellerStat,
      (∀ r ∈ records, ∀ sel : Seller, sIdx (r.seller_id.getD "") = some sel →
        sel.id = targetId → ∀ it ∈ r.items.getD [], itemMatched pIdx it = false) →
      (∀ s ∈ stats, s.id = targetId → s.profit = 0 ∧ s.products_sold = []) →
      ∀ s ∈ records.foldl (processRecord o sIdx pIdx) stats, s.id = targetId →
        s.profit = 0 ∧ s.products_sold = [] := by
  induction records with
  | nil =>
    intro stats _ hinv
    exact hinv
  | cons r rs ih =>
    intro stats hrecs hinv
    rw [List.foldl_cons]
    exact ih _ (fun r2 h2 => hrecs r2 (List.mem_cons_of_mem r h2))
      (zero_profit_processRecord o sIdx pIdx stats r targetId
        (hrecs r (List.mem_cons_self r rs)) hinv)

/-! An absent `total_amount` poisons the seller's revenue with `NaN`. -/

theorem addOpt_nan (ta : Option ℚ) : JNum.nan.addOpt ta = JNum.nan := by
  cases ta <;> rfl

theorem nan_processRecord (o : SalesOptions) (sIdx : String → Option Seller)
    (pIdx : String → Option Product) (stats : List SellerStat) (r : PurchaseRecord)
    (targetId : Option String)
    (hinv : ∃ st, stats.find? (fun s => decide (s.id = targetId)) = some st ∧
      st.revenue = JNum.nan) :
    ∃ st, (processRecord o sIdx pIdx stats r).find? (fun s => decide (s.id = targetId)) =
      some st ∧ st.revenue = JNum.nan := by
  obtain ⟨st, hfind, hnan⟩ := hinv
  by_cases h1 : (!truthyS r.seller_id || r.items.isNone) = true
  · rw [processRecord_skip_invalid o sIdx pIdx stats r h1]
    exact ⟨st, hfind, hnan⟩
  · have h1' : (!truthyS r.seller_id || r.items.isNone) = false :=
      Bool.eq_false_iff.mpr h1
    cases hlook : sIdx (r.seller_id.getD "") with
    | none =>
      rw [processRecord_unknown_seller o sIdx pIdx stats r hlook]
      exact ⟨st, hfind, hnan⟩
    | some sel =>
      rw [processRecord_matched o sIdx pIdx stats r sel h1' hlook]
      by_cases hid : sel.id = targetId
      · rw [hid]
        rw [find?_updateFirst_self (fun s => decide (s.id = targetId))
          (recordUpdate o pIdx r) stats
          (fun x => by simp only [recordUpdate_id])]
        rw [hfind]
        refine ⟨_, rfl, ?_⟩
        rw [recordUpdate_revenue o pIdx r st, hnan, addOpt_nan]
      · rw [find?_updateFirst_other (fun s => decide (s.id = sel.id))
          (fun s => decide (s.id = targetId)) (recordUpdate o pIdx r) stats
          (fun x hx => by
            have hxe := of_decide_eq_true hx
            simp [hxe, hid])
          (fun x => by simp only [recordUpdate_id])]
        exact ⟨st, hfind, hnan⟩

theorem nan_foldl (o : SalesOptions) (sIdx : String → Option Seller)
    (pIdx : String → Option Product) (records : List PurchaseRecord)
    (targetId : Option String) :
    ∀ stats : List SellerStat,
      (∃ st, stats.find? (fun s => decide (s.id = targetId)) = some st ∧
        st.revenue = JNum.nan) →
      ∃ st, (records.foldl (processRecord o sIdx pIdx) stats).find?
        (fun s => decide (s.id = targetId)) = some st ∧ st.revenue = JNum.nan := by
  induction records with
  | nil =>
    intro stats hinv
    exact hinv
  | cons r rs ih =>
    intro stats hinv
    rw [List.foldl_cons]
    exact ih _ (nan_processRecord o sIdx pIdx stats r targetId hinv)

theorem cover_foldl (o : SalesOptions) (sIdx : String → Option Seller)
    (pIdx : String → Option Product) (records : List PurchaseRecord) :
    ∀ stats : List SellerStat,
      (∀ (sel : Seller) (k : String), sIdx k = some sel → ∃ x ∈ stats, x.id = sel.id) →
      ∀ (sel : Seller) (k : String), sIdx k = some sel →
        ∃ x ∈ records.foldl (processRecord o sIdx pIdx) stats, x.id = sel.id := by
  induction records with
  | nil =>
    intro stats hc
    exact hc
  | cons r rs ih =>
    intro stats hc
    rw [List.foldl_cons]
    exact ih _ (cover_processRecord o sIdx pIdx stats r hc)

theorem nan_start (o : SalesOptions) (sIdx : String → Option Seller)
    (pIdx : String → Option Product) (stats : List SellerStat) (r : PurchaseRecord)
    (sel : Seller)
    (h1 : (!truthyS r.seller_id || r.items.isNone) = false)
    (hlook : sIdx (r.seller_id.getD "") = some sel)
    (hta : r.total_amount = none)
    (hex : ∃ x ∈ stats, x.id = sel.id) :
    ∃ st, (processRecord o sIdx pIdx stats r).find? (fun s => decide (s.id = sel.id)) =
      some st ∧ st.revenue = JNum.nan := by
  rw [processRecord_matched o sIdx pIdx stats r sel h1 hlook]
  rw [find?_updateFirst_self (fun s => decide (s.id = sel.id)) (recordUpdate o pIdx r)
    stats (fun x => by simp only [recordUpdate_id])]
  obtain ⟨x, hx, hid⟩ := hex
  have hsome : (stats.find? (fun s => decide (s.id = sel.id))).isSome := by
    rw [List.find?_isSome]
    exact ⟨x, hx, by simp [hid]⟩
  obtain ⟨x0, hx0⟩ := Option.isSome_iff_exists.mp hsome
  rw [hx0]
  refine ⟨_, rfl, ?_⟩
  rw [recordUpdate_revenue o pIdx r x0, hta]
  cases x0.revenue <;> rfl

theorem mem_assignBonus_of_mem (o : SalesOptions) (l : List SellerStat) (y : SellerStat)
    (hy : y ∈ l) : ∃ z ∈ assignBonus o l, z.id = y.id ∧ z.revenue = y.revenue := by
  obtain ⟨⟨i, hi⟩, hget⟩ := List.mem_iff_get.mp hy
  have hlen : i < (assignBonus o l).length := by
    rw [assignBonus_length]
    exact hi
  refine ⟨(assignBonus o l).get ⟨i, hlen⟩, List.get_mem _ _ _, ?_⟩
  rw [assignBonus_get o l i hlen hi]
  constructor
  · show (l.get ⟨i, hi⟩).id = y.id
    rw [hget]
  · show (l.get ⟨i, hi⟩).revenue = y.revenue
    rw [hget]

theorem round2_zero : round2 0 = 0 := by
  unfold round2
  norm_num

theorem topProducts_nil : topProducts [] = [] := rfl

/-! Concrete inputs used by the witnesses and counterexamples below. -/

/-- The options object wiring in the repository's two default strategies. -/
def optionsDefault : SalesOptions :=
  { calculateRevenue := calculateSimpleRevenue
    calculateBonus := calculateBonusByProfit }

def sellerA : Seller :=
  { id := some "s1"
    first_name := some "Ann"
    last_name := some "Lee" }

def sellerB : Seller :=
  { id := some "s2"
    first_name := some "Bob"
    last_name := some "Kim" }

def sellerC : Seller :=
  { id := some "s3"
    first_name := some "Cal"
    last_name := some "Roe" }

def productA : Product :=
  { sku := some "A"
    purchase_price := some 50
    sale_price := some 100 }

def itemA : Item :=
  { sku := some "A"
    quantity := some 2
    sale_price := some 100
    discount := none }

def recordA : PurchaseRecord :=
  { seller_id := some "s1"
    total_amount := some 200
    items := some [itemA] }

/-- The single-seller scenario from the specification: revenue 200,
cost 100, profit 100, sole-seller bonus 15. -/
def dataA : SalesData :=
  { sellers := [sellerA]
    products := [productA]
    purchase_records := [recordA] }

/-- Three sellers, only the first has a sale: profits 100, 0, 0 with a tie
between the last two. -/
def dataB : SalesData :=
  { sellers := [sellerA, sellerB, sellerC]
    products := [productA]
    purchase_records := [recordA] }

/-- Valid input except that the single item lacks `quantity`. -/
def dataC4 : SalesData :=
  { sellers := [sellerA]
    products := [productA]
    purchase_records := [
      { seller_id := some "s1"
        total_amount := some 200
        items := some [
          { sku := some "A"
            quantity := none
            sale_price := some 100
            discount := none } ] } ] }

/-- Valid input whose single record's item references the unknown sku
`"B"`; the record itself carries `total_amount` 100. -/
def dataC5 : SalesData :=
  { sellers := [sellerA]
    products := [productA]
    purchase_records := [
      { seller_id := some "s1"
        total_amount := some 100
        items := some [
          { sku := some "B"
            quantity := some 1
            sale_price := some 5
            discount := none } ] } ] }

/-- Valid input except that the product's `purchase_price` is the falsy
number 0. -/
def dataC6 : SalesData :=
  { sellers := [sellerA]
    products := [
      { sku := some "A"
        purchase_price := some 0
        sale_price := some 100 } ]
    purchase_records := [recordA] }

/-- Fully valid input with a negative `purchase_price`. -/
def dataC6W : SalesData :=
  { sellers := [sellerA]
    products := [
      { sku := some "A"
        purchase_price := some (-50)
        sale_price := some 100 } ]
    purchase_records := [recordA] }

/-- A record referencing the unknown seller id `"ghost"`. -/
def recordGhost : PurchaseRecord :=
  { seller_id := some "ghost"
    total_amount := some 50
    items := some [
      { sku := some "A"
        quantity := some 1
        sale_price := some 100
        discount := none } ] }

/-- Valid input containing one record for an unknown seller and one for a
known seller. -/
def dataC7 : SalesData :=
  { sellers := [sellerA]
    products := [productA]
    purchase_records := [recordGhost, recordA] }

/-- Valid input whose sellers list contains two entries with the same id. -/
def dataC9 : SalesData :=
  { sellers := [sellerA,
      { id := some "s1"
        first_name := some "Bob"
        last_name := some "Kim" }]
    products := [productA]
    purchase_records := [recordA] }

/-- A matched record lacking `total_amount`. -/
def recordC10 : PurchaseRecord :=
  { seller_id := some "s1"
    total_amount := none
    items := some [itemA] }

/-- Valid input whose single (matched) record lacks `total_amount`. -/
def dataC10 : SalesData :=
  { sellers := [sellerA]
    products := [productA]
    purchase_records := [recordC10] }

/-- A sample accumulator with profit 40, used to exercise the bonus
policy. -/
def statExample : SellerStat :=
  { id := some "s1"
    name := "Ann Lee"
    revenue := JNum.num 0
    profit := 40
    sales_count := 0
    products_sold := []
    bonus := 0
    top_products := [] }

/-! The claims. -/

/-- C1: for every dataset and options object that pass validation (the
injected strategies being total functions of the embedding), the
accumulation, ranking, bonus-assignment and formatting phases never throw:
the call returns a result array. -/
theorem analyzeSalesData_total_after_validation (d : SalesData) (o : SalesOptions)
    (h : passesValidation d = true) :
    ∃ out : List OutputRecord, analyzeSalesData d o = Except.ok out :=
  ⟨(finalStats d o).map formatStat, analyze_ok_of_valid d o h⟩

/-- Witness for C1 at the single-seller scenario of the specification. -/
theorem analyzeSalesData_total_after_validation_witness :
    passesValidation dataA = true ∧
    ∃ out : List OutputRecord, analyzeSalesData dataA optionsDefault = Except.ok out :=
  ⟨by decide, analyzeSalesData_total_after_validation dataA optionsDefault (by decide)⟩

/-- C2: the default bonus strategy pays 15% of profit at rank 0, 10% at
ranks 1 and 2, 5% at any other non-last rank, 0 at the last rank, and for
a single seller (`total = 1`) the rank-0 branch takes precedence, paying
15%. -/
theorem calculateBonusByProfit_policy (index total : ℕ) (seller : SellerStat) :
    (index = 0 → calculateBonusByProfit index total seller = 15 / 100 * seller.profit) ∧
    (index = 1 ∨ index = 2 →
      calculateBonusByProfit index total seller = 10 / 100 * seller.profit) ∧
    (2 < index → (index : ℤ) < (total : ℤ) - 1 →
      calculateBonusByProfit index total seller = 5 / 100 * seller.profit) ∧
    (2 < index → (index : ℤ) = (total : ℤ) - 1 →
      calculateBonusByProfit index total seller = 0) ∧
    (total = 1 → index = 0 →
      calculateBonusByProfit index total seller = 15 / 100 * seller.profit) := by
  refine ⟨?_, ?_, ?_, ?_, ?_⟩
  · intro h
    subst h
    simp [calculateBonusByProfit, mul_comm]
  · intro h
    rcases h with rfl | rfl <;> simp [calculateBonusByProfit, mul_comm]
  · intro h3 hlt
    have h0 : ¬ index = 0 := by omega
    have h12 : ¬ (index ≤ 2 ∧ index > 0) := by omega
    simp only [calculateBonusByProfit, if_neg h0, if_neg h12, if_pos hlt]
    ring
  · intro h3 heq
    have h0 : ¬ index = 0 := by omega
    have h12 : ¬ (index ≤ 2 ∧ index > 0) := by omega
    have hnlt : ¬ ((index : ℤ) < (total : ℤ) - 1) := by omega
    simp only [calculateBonusByProfit, if_neg h0, if_neg h12, if_neg hnlt]
    ring
  · intro _ h
    subst h
    simp [calculateBonusByProfit, mul_comm]

/-- Witness for C2: the four branches of the policy at concrete ranks. -/
theorem calculateBonusByProfit_policy_witness :
    calculateBonusByProfit 0 1 statExample = 15 / 100 * statExample.profit ∧
    calculateBonusByProfit 2 9 statExample = 10 / 100 * statExample.profit ∧
    calculateBonusByProfit 3 9 statExample = 5 / 100 * statExample.profit ∧
    calculateBonusByProfit 8 9 statExample = 0 :=
  ⟨(calculateBonusByProfit_policy 0 1 statExample).1 rfl,
   (calculateBonusByProfit_policy 2 9 statExample).2.1 (Or.inr rfl),
   (calculateBonusByProfit_policy 3 9 statExample).2.2.1 (by norm_num) (by norm_num),
   (calculateBonusByProfit_policy 8 9 statExample).2.2.2.1 (by norm_num) (by norm_num)⟩

/-- C3: on every valid input the pipeline succeeds with the formatted
ranked list, the ranked list is sorted descending by unrounded profit, the
sort is stable (filtering at any fixed profit value is unchanged), the
accumulated list is in input seller order, and bonus assignment keeps the
ranked profit order positionally. -/
theorem analyzeSalesData_sorted_stable (d : SalesData) (o : SalesOptions)
    (h : passesValidation d = true) :
    analyzeSalesData d o = Except.ok ((finalStats d o).map formatStat) ∧
    List.Sorted profitGE (rankedStats d o) ∧
    (∀ c : ℚ, (rankedStats d o).filter (fun s => decide (s.profit = c)) =
      (accumulatedStats d o).filter (fun s => decide (s.profit = c))) ∧
    (accumulatedStats d o).map SellerStat.id = d.sellers.map Seller.id ∧
    (finalStats d o).map SellerStat.profit = (rankedStats d o).map SellerStat.profit :=
  ⟨analyze_ok_of_valid d o h,
   List.sorted_insertionSort profitGE (accumulatedStats d o),
   fun c => filter_insertionSort_profit c (accumulatedStats d o),
   accumulatedStats_map_id d o,
   assignBonus_map_field o (rankedStats d o) SellerStat.profit (fun _ _ _ => rfl)⟩

/-- Witness for C3 on the three-seller input with a profit tie. -/
theorem analyzeSalesData_sorted_stable_witness :
    analyzeSalesData dataB optionsDefault =
      Except.ok ((finalStats dataB optionsDefault).map formatStat) ∧
    List.Sorted profitGE (rankedStats dataB optionsDefault) ∧
    (∀ c : ℚ, (rankedStats dataB optionsDefault).filter (fun s => decide (s.profit = c)) =
      (accumulatedStats dataB optionsDefault).filter (fun s => decide (s.profit = c))) ∧
    (accumulatedStats dataB optionsDefault).map SellerStat.id =
      dataB.sellers.map Seller.id ∧
    (finalStats dataB optionsDefault).map SellerStat.profit =
      (rankedStats dataB optionsDefault).map SellerStat.profit :=
  analyzeSalesData_sorted_stable dataB optionsDefault (by decide)

/-- C7: a record whose `seller_id` is unknown to the seller index is
skipped: the accumulated statistics equal the fold over the input with
that record removed, and the call still succeeds. -/
theorem analyzeSalesData_unknown_seller_skipped (d : SalesData) (o : SalesOptions)
    (l1 l2 : List PurchaseRecord) (r : PurchaseRecord)
    (h : passesValidation d = true)
    (hrec : d.purchase_records = l1 ++ r :: l2)
    (hunknown : mkIndex Seller.id d.sellers (r.seller_id.getD "") = none) :
    analyzeSalesData d o = Except.ok ((finalStats d o).map formatStat) ∧
    accumulatedStats d o =
      (l1 ++ l2).foldl
        (processRecord o (mkIndex Seller.id d.sellers) (mkIndex Product.sku d.products))
        (initStats d.sellers) := by
  refine ⟨analyze_ok_of_valid d o h, ?_⟩
  unfold accumulatedStats
  rw [hrec, List.foldl_append, List.foldl_cons,
    processRecord_unknown_seller o (mkIndex Seller.id d.sellers)
      (mkIndex Product.sku d.products) _ r hunknown,
    ← List.foldl_append]

/-- Witness for C7: a record referencing seller id `"ghost"`. -/
theorem analyzeSalesData_unknown_seller_skipped_witness :
    analyzeSalesData dataC7 optionsDefault =
      Except.ok ((finalStats dataC7 optionsDefault).map formatStat) ∧
    accumulatedStats dataC7 optionsDefault =
      ([] ++ [recordA]).foldl
        (processRecord optionsDefault (mkIndex Seller.id dataC7.sellers)
          (mkIndex Product.sku dataC7.products))
        (initStats dataC7.sellers) :=
  analyzeSalesData_unknown_seller_skipped dataC7 optionsDefault [] [recordA] recordGhost
    (by decide) rfl (by decide)

/-- C8: on every valid input, the sum of `sales_count` over the output
records equals the number of purchase records whose `seller_id` is present
in the seller index. -/
theorem analyzeSalesData_sales_count_sum (d : SalesData) (o : SalesOptions)
    (out : List OutputRecord) (h : passesValidation d = true)
    (hout : analyzeSalesData d o = Except.ok out) :
    (out.map OutputRecord.sales_count).sum =
      (d.purchase_records.filter (matchedRecord (mkIndex Seller.id d.sellers))).length := by
  have hok := analyze_ok_of_valid d o h
  rw [hout] at hok
  have hout2 : out = (finalStats d o).map formatStat := Except.ok.inj hok
  rw [hout2, List.map_map]
  have hcomp : OutputRecord.sales_count ∘ formatStat = SellerStat.sales_count := rfl
  rw [hcomp, sum_sales_final d o, sum_sales_accumulated d o (valid_components d h).2.2.2.1]

/-- Witness for C8 on the input with one matched and one unmatched
record. -/
theorem analyzeSalesData_sales_count_sum_witness :
    (((finalStats dataC7 optionsDefault).map formatStat).map OutputRecord.sales_count).sum =
      (dataC7.purchase_records.filter
        (matchedRecord (mkIndex Seller.id dataC7.sellers))).length :=
  analyzeSalesData_sales_count_sum dataC7 optionsDefault
    ((finalStats dataC7 optionsDefault).map formatStat) (by decide)
    (analyze_ok_of_valid dataC7 optionsDefault (by decide))

/-- C10: no phase checks `total_amount`.  For an otherwise-valid input
whose matched record `r` lacks `total_amount`, validation passes (the
hypothesis only constrains the other fields), the record is not skipped —
the summed `sales_count` exceeds the fold without `r` by exactly 1 — and
the absent amount is added as-is, so the seller's output revenue is `NaN`
rather than the result of treating it as 0. -/
theorem analyzeSalesData_total_amount_unchecked (d : SalesData) (o : SalesOptions)
    (l1 l2 : List PurchaseRecord) (r : PurchaseRecord) (sel : Seller)
    (h : passesValidation d = true)
    (hrec : d.purchase_records = l1 ++ r :: l2)
    (hta : r.total_amount = none)
    (hlook : mkIndex Seller.id d.sellers (r.seller_id.getD "") = some sel) :
    analyzeSalesData d o = Except.ok ((finalStats d o).map formatStat) ∧
    ((accumulatedStats d o).map SellerStat.sales_count).sum =
      (((l1 ++ l2).foldl (processRecord o (mkIndex Seller.id d.sellers)
          (mkIndex Product.sku d.products)) (initStats d.sellers)).map
        SellerStat.sales_count).sum + 1 ∧
    ∃ rec ∈ (finalStats d o).map formatStat,
      rec.seller_id = sel.id ∧ rec.revenue = JNum.nan := by
  obtain ⟨_, _, _, h4, _⟩ := valid_components d h
  have hfields := record_fields_of_valid d.purchase_records h4
  have hrmem : r ∈ d.purchase_records := by
    rw [hrec]
    exact List.mem_append.mpr (Or.inr (List.mem_cons_self r l2))
  have hr1 : (!truthyS r.seller_id || r.items.isNone) = false := by
    rw [(hfields r hrmem).1, (hfields r hrmem).2.1]
    rfl
  have hmatched : matchedRecord (mkIndex Seller.id d.sellers) r = true := by
    unfold matchedRecord
    rw [hlook]
    rfl
  have hcond1 : ∀ r2 ∈ l1 ++ r :: l2,
      truthyS r2.seller_id = true ∧ r2.items.isNone = false := by
    intro r2 h2
    have hm : r2 ∈ d.purchase_records := by
      rw [hrec]
      exact h2
    exact ⟨(hfields r2 hm).1, (hfields r2 hm).2.1⟩
  have hcond2 : ∀ r2 ∈ l1 ++ l2,
      truthyS r2.seller_id = true ∧ r2.items.isNone = false := by
    intro r2 h2
    rcases List.mem_append.mp h2 with ha | hb
    · exact hcond1 r2 (List.mem_append.mpr (Or.inl ha))
    · exact hcond1 r2 (List.mem_append.mpr (Or.inr (List.mem_cons_of_mem r hb)))
  refine ⟨analyze_ok_of_valid d o h, ?_, ?_⟩
  · have hAcc : accumulatedStats d o =
        (l1 ++ r :: l2).foldl
          (processRecord o (mkIndex Seller.id d.sellers) (mkIndex Product.sku d.products))
          (initStats d.sellers) := by
      unfold accumulatedStats
      rw [hrec]
    rw [hAcc,
      sum_sales_foldl o (mkIndex Seller.id d.sellers) (mkIndex Product.sku d.products)
        (l1 ++ r :: l2) (initStats d.sellers) hcond1 (initStats_cover d.sellers),
      sum_sales_foldl o (mkIndex Seller.id d.sellers) (mkIndex Product.sku d.products)
        (l1 ++ l2) (initStats d.sellers) hcond2 (initStats_cover d.sellers),
      List.filter_append, List.filter_append, List.filter_cons, hmatched]
    simp
    omega
  · have hcov1 := cover_foldl o (mkIndex Seller.id d.sellers)
      (mkIndex Product.sku d.products) l1 (initStats d.sellers)
      (initStats_cover d.sellers)
    have hex := hcov1 sel (r.seller_id.getD "") hlook
    have hstart := nan_start o (mkIndex Seller.id d.sellers)
      (mkIndex Product.sku d.products) _ r sel hr1 hlook hta hex
    have hnanAcc := nan_foldl o (mkIndex Seller.id d.sellers)
      (mkIndex Product.sku d.products) l2 sel.id _ hstart
    have hAcc : accumulatedStats d o =
        l2.foldl (processRecord o (mkIndex Seller.id d.sellers)
          (mkIndex Product.sku d.products))
          (processRecord o (mkIndex Seller.id d.sellers) (mkIndex Product.sku d.products)
            (l1.foldl (processRecord o (mkIndex Seller.id d.sellers)
              (mkIndex Product.sku d.products)) (initStats d.sellers)) r) := by
      unfold accumulatedStats
      rw [hrec, List.foldl_append, List.foldl_cons]
    obtain ⟨st, hfind, hnan⟩ := hnanAcc
    have hmem : st ∈ accumulatedStats d o := by
      rw [hAcc]
      exact List.mem_of_find?_eq_some hfind
    have hid : st.id = sel.id := by
      have hid0 := List.find?_some hfind
      simpa using hid0
    have hmem2 : st ∈ rankedStats d o :=
      ((List.perm_insertionSort profitGE (accumulatedStats d o)).mem_iff).mpr hmem
    obtain ⟨z, hz, hzid, hzrev⟩ := mem_assignBonus_of_mem o (rankedStats d o) st hmem2
    refine ⟨formatStat z, List.mem_map_of_mem formatStat hz, ?_, ?_⟩
    · show z.id = sel.id
      rw [hzid, hid]
    · show jround2 z.revenue = JNum.nan
      rw [hzrev, hnan]
      rfl

/-- Witness for C10: the matched record of `dataC10` lacks
`total_amount`. -/
theorem analyzeSalesData_total_amount_unchecked_witness :
    analyzeSalesData dataC10 optionsDefault =
      Except.ok ((finalStats dataC10 optionsDefault).map formatStat) ∧
    ((accumulatedStats dataC10 optionsDefault).map SellerStat.sales_count).sum =
      ((([] ++ []).foldl (processRecord optionsDefault
          (mkIndex Seller.id dataC10.sellers)
          (mkIndex Product.sku dataC10.products)) (initStats dataC10.sellers)).map
        SellerStat.sales_count).sum + 1 ∧
    ∃ rec ∈ (finalStats dataC10 optionsDefault).map formatStat,
      rec.seller_id = sellerA.id ∧ rec.revenue = JNum.nan :=
  analyzeSalesData_total_amount_unchecked dataC10 optionsDefault [] []
    recordC10 sellerA (by decide) rfl rfl (by decide)

/-- A record that the accumulator attributes to the seller with id
`targetId` (its `seller_id` resolves to a seller carrying that id). -/
def soldByTarget (sIdx : String → Option Seller) (targetId : Option String)
    (r : PurchaseRecord) : Bool :=
  match sIdx (r.seller_id.getD "") with
  | some sel => decide (sel.id = targetId)
  | none => false

/-- Counterexample to C5 as stated: in `dataC5` none of the sole seller's
record items match a known product, yet the output revenue is 100 — the
record's `total_amount`, accumulated independently of item matching — and
not 0.  Profit, `top_products` and bonus behave as claimed. -/
theorem analyzeSalesData_zero_items_revenue_counterexample :
    (∀ r ∈ dataC5.purchase_records, ∀ it ∈ r.items.getD [],
      itemMatched (mkIndex Product.sku dataC5.products) it = false) ∧
    analyzeSalesData dataC5 optionsDefault = Except.ok [
      { seller_id := some "s1"
        name := "Ann Lee"
        revenue := JNum.num 100
        profit := 0
        sales_count := 1
        top_products := []
        bonus := 0 } ] ∧
    JNum.num (100 : ℚ) ≠ JNum.num 0 := by
  refine ⟨by decide, ?_, by decide⟩
  rw [analyze_ok_of_valid dataC5 optionsDefault (by decide)]
  norm_num [finalStats, rankedStats, accumulatedStats, dataC5, initStats, mkIndex,
    processRecord, recordUpdate, processItem, updateFirst, truthyS, truthyQ,
    assignBonus, bonusUpdate, topProducts, formatStat, round2, jround2,
    addQty, sellerA, productA, JNum.addOpt, optionsDefault,
    calculateSimpleRevenue, calculateBonusByProfit, profitGE,
    (by decide : ("B" : String) ≠ ""), (by decide : ("A" : String) ≠ "B"),
    (by decide : ("s1" : String) ≠ ""),
    (by decide : ("Ann" : String) ++ " " ++ "Lee" = "Ann Lee")]

/-- C5 amended: for a seller none of whose purchase-record items matched a
known product, the output record still has `profit = 0`,
`top_products = []` and a bonus that is the injected strategy applied to
that zero-profit seller at its rank; the `revenue = 0` clause of the
original claim is dropped, since `total_amount` of matched records accrues
regardless of item matching. -/
theorem analyzeSalesData_zero_items_amended (d : SalesData) (o : SalesOptions)
    (targetId : Option String) (h : passesValidation d = true)
    (hnone : ∀ r ∈ d.purchase_records,
      soldByTarget (mkIndex Seller.id d.sellers) targetId r = true →
      ∀ it ∈ r.items.getD [], itemMatched (mkIndex Product.sku d.products) it = false) :
    analyzeSalesData d o = Except.ok ((finalStats d o).map formatStat) ∧
    (∀ s ∈ rankedStats d o, s.id = targetId → s.profit = 0 ∧ s.products_sold = []) ∧
    (∀ (i : ℕ) (hi : i < (finalStats d o).length) (hi2 : i < (rankedStats d o).length),
      ((finalStats d o).get ⟨i, hi⟩).id = targetId →
        ((finalStats d o).get ⟨i, hi⟩).profit = 0 ∧
        ((finalStats d o).get ⟨i, hi⟩).top_products = [] ∧
        ((rankedStats d o).get ⟨i, hi2⟩).profit = 0 ∧
        ((finalStats d o).get ⟨i, hi⟩).bonus =
          o.calculateBonus i (rankedStats d o).length ((rankedStats d o).get ⟨i, hi2⟩)) ∧
    (∀ rec ∈ (finalStats d o).map formatStat, rec.seller_id = targetId →
      rec.profit = 0 ∧ rec.top_products = []) := by
  have hnone2 : ∀ r ∈ d.purchase_records, ∀ sel : Seller,
      mkIndex Seller.id d.sellers (r.seller_id.getD "") = some sel → sel.id = targetId →
      ∀ it ∈ r.items.getD [], itemMatched (mkIndex Product.sku d.products) it = false := by
    intro r hr sel hsel hselid it hit
    apply hnone r hr ?_ it hit
    unfold soldByTarget
    rw [hsel]
    simp [hselid]
  have hzAcc : ∀ s ∈ accumulatedStats d o, s.id = targetId →
      s.profit = 0 ∧ s.products_sold = [] := by
    unfold accumulatedStats
    apply zero_profit_foldl o (mkIndex Seller.id d.sellers) (mkIndex Product.sku d.products)
      d.purchase_records targetId (initStats d.sellers) hnone2
    intro s hs _
    obtain ⟨sel, _, rfl⟩ := List.mem_map.mp hs
    exact ⟨rfl, rfl⟩
  have hzRank : ∀ s ∈ rankedStats d o, s.id = targetId →
      s.profit = 0 ∧ s.products_sold = [] := fun s hs =>
    hzAcc s ((List.perm_insertionSort profitGE (accumulatedStats d o)).mem_iff.mp hs)
  refine ⟨analyze_ok_of_valid d o h, hzRank, ?_, ?_⟩
  · intro i hi hi2 hidt
    have hget : (finalStats d o).get ⟨i, hi⟩ =
        bonusUpdate o (rankedStats d o).length (i, (rankedStats d o).get ⟨i, hi2⟩) :=
      assignBonus_get o (rankedStats d o) i hi hi2
    have hidr : ((rankedStats d o).get ⟨i, hi2⟩).id = targetId := by
      rw [hget] at hidt
      exact hidt
    have hz := hzRank ((rankedStats d o).get ⟨i, hi2⟩) (List.get_mem _ _ _) hidr
    refine ⟨?_, ?_, hz.1, ?_⟩
    · rw [hget]
      exact hz.1
    · rw [hget]
      show topProducts ((rankedStats d o).get ⟨i, hi2⟩).products_sold = []
      rw [hz.2]
      exact topProducts_nil
    · rw [hget]
      rfl
  · intro rec hrec hidt
    obtain ⟨z, hz, hfz⟩ := List.mem_map.mp hrec
    obtain ⟨⟨j, hj⟩, hgetz⟩ := List.mem_iff_get.mp hz
    have hj2 : j < (rankedStats d o).length := by
      have hlen : (finalStats d o).length = (rankedStats d o).length :=
        assignBonus_length o (rankedStats d o)
      rw [← hlen]
      exact hj
    have hzb : z = bonusUpdate o (rankedStats d o).length
        (j, (rankedStats d o).get ⟨j, hj2⟩) := by
      rw [← hgetz]
      exact assignBonus_get o (rankedStats d o) j hj hj2
    have hidr : ((rankedStats d o).get ⟨j, hj2⟩).id = targetId := by
      rw [← hfz] at hidt
      rw [hzb] at hidt
      exact hidt
    have hzr := hzRank ((rankedStats d o).get ⟨j, hj2⟩) (List.get_mem _ _ _) hidr
    constructor
    · rw [← hfz, hzb]
      show round2 ((rankedStats d o).get ⟨j, hj2⟩).profit = 0
      rw [hzr.1, round2_zero]
    · rw [← hfz, hzb]
      show topProducts ((rankedStats d o).get ⟨j, hj2⟩).products_sold = []
      rw [hzr.2]
      exact topProducts_nil

/-- Witness for the amended C5 at `dataC5`. -/
theorem analyzeSalesData_zero_items_amended_witness :
    analyzeSalesData dataC5 optionsDefault =
      Except.ok ((finalStats dataC5 optionsDefault).map formatStat) ∧
    (∀ s ∈ rankedStats dataC5 optionsDefault, s.id = some "s1" →
      s.profit = 0 ∧ s.products_sold = []) ∧
    (∀ (i : ℕ) (hi : i < (finalStats dataC5 optionsDefault).length)
        (hi2 : i < (rankedStats dataC5 optionsDefault).length),
      ((finalStats dataC5 optionsDefault).get ⟨i, hi⟩).id = some "s1" →
        ((finalStats dataC5 optionsDefault).get ⟨i, hi⟩).profit = 0 ∧
        ((finalStats dataC5 optionsDefault).get ⟨i, hi⟩).top_products = [] ∧
        ((rankedStats dataC5 optionsDefault).get ⟨i, hi2⟩).profit = 0 ∧
        ((finalStats dataC5 optionsDefault).get ⟨i, hi⟩).bonus =
          optionsDefault.calculateBonus i (rankedStats dataC5 optionsDefault).length
            ((rankedStats dataC5 optionsDefault).get ⟨i, hi2⟩)) ∧
    (∀ rec ∈ (finalStats dataC5 optionsDefault).map formatStat,
      rec.seller_id = some "s1" → rec.profit = 0 ∧ rec.top_products = []) :=
  analyzeSalesData_zero_items_amended dataC5 optionsDefault (some "s1")
    (by decide) (by decide)

/-- Counterexample to C4 as stated: in `dataC4` a single item lacks
`quantity` while all other structure is valid, and the call does NOT
return a result array — the fail-fast items validation (lines 84–93 of the
source) aborts with an error before any accumulation. -/
theorem analyzeSalesData_invalid_item_counterexample :
    hasInvalidSellers dataC4.sellers = false ∧
    hasInvalidProducts dataC4.products = false ∧
    hasInvalidPurchases dataC4.purchase_records = false ∧
    hasInvalidItems dataC4.purchase_records = true ∧
    analyzeSalesData dataC4 optionsDefault =
      Except.error "invalid items data: check sku, quantity and sale_price" :=
  ⟨by decide, by decide, by decide, by decide, by rfl⟩

/-- C4 amended: an input whose items fail the `sku`/`quantity`/`sale_price`
presence check (all other structure valid) is rejected by validation: the
call throws the items error and no result array is returned; the row-level
item-skip branch of the fold is unreachable for such inputs. -/
theorem analyzeSalesData_invalid_item_amended (d : SalesData) (o : SalesOptions)
    (hne : (d.sellers.isEmpty || d.products.isEmpty || d.purchase_records.isEmpty) = false)
    (hstruct : (hasInvalidSellers d.sellers || hasInvalidProducts d.products ||
      hasInvalidPurchases d.purchase_records) = false)
    (hitems : hasInvalidItems d.purchase_records = true) :
    analyzeSalesData d o =
      Except.error "invalid items data: check sku, quantity and sale_price" := by
  unfold analyzeSalesData
  rw [hne, hstruct, hitems]
  rfl

/-- Witness for the amended C4 at `dataC4`. -/
theorem analyzeSalesData_invalid_item_amended_witness :
    analyzeSalesData dataC4 optionsDefault =
      Except.error "invalid items data: check sku, quantity and sale_price" :=
  analyzeSalesData_invalid_item_amended dataC4 optionsDefault
    (by decide) (by decide) (by decide)

/-- Counterexample to C6 as stated: in `dataC6` every required field is
present with a numeric value, but `purchase_price` is the falsy number 0;
validation rejects the input instead of passing it. -/
theorem analyzeSalesData_zero_price_counterexample :
    (∀ p ∈ dataC6.products, p.purchase_price.isSome = true) ∧
    dataC6.products.map Product.purchase_price = [some 0] ∧
    analyzeSalesData dataC6 optionsDefault =
      Except.error "invalid data structure: check required fields" :=
  ⟨by decide, by decide, by rfl⟩

/-- C6 amended: validation rejects only structural absence or falsiness —
it passes whenever the required string fields are nonempty and the
required numeric fields are present and nonzero (negative numbers pass);
a zero numeric value is treated as absent by the truthiness checks and
rejected. -/
theorem analyzeSalesData_structural_validation_amended (d : SalesData) (o : SalesOptions)
    (hne : d.sellers ≠ [] ∧ d.products ≠ [] ∧ d.purchase_records ≠ [])
    (hs : ∀ s ∈ d.sellers, truthyS s.id = true ∧ truthyS s.first_name = true ∧
      truthyS s.last_name = true)
    (hp : ∀ p ∈ d.products, truthyS p.sku = true ∧ truthyQ p.purchase_price = true ∧
      truthyQ p.sale_price = true)
    (hr : ∀ r ∈ d.purchase_records, truthyS r.seller_id = true ∧ r.items.isNone = false ∧
      (r.items.getD []).isEmpty = false ∧
      ∀ it ∈ r.items.getD [], truthyS it.sku = true ∧ truthyQ it.quantity = true ∧
        truthyQ it.sale_price = true) :
    passesValidation d = true ∧
    ∃ out : List OutputRecord, analyzeSalesData d o = Except.ok out := by
  have h1 : d.sellers.isEmpty = false := by
    cases hd : d.sellers
    · exact absurd hd hne.1
    · rfl
  have h2 : d.products.isEmpty = false := by
    cases hd : d.products
    · exact absurd hd hne.2.1
    · rfl
  have h3 : d.purchase_records.isEmpty = false := by
    cases hd : d.purchase_records
    · exact absurd hd hne.2.2
    · rfl
  have h4 : hasInvalidSellers d.sellers = false := by
    unfold hasInvalidSellers
    rw [List.any_eq_false]
    intro s hmem
    simp [(hs s hmem).1, (hs s hmem).2.1, (hs s hmem).2.2]
  have h5 : hasInvalidProducts d.products = false := by
    unfold hasInvalidProducts
    rw [List.any_eq_false]
    intro p hmem
    simp [(hp p hmem).1, (hp p hmem).2.1, (hp p hmem).2.2]
  have h6 : hasInvalidPurchases d.purchase_records = false := by
    unfold hasInvalidPurchases
    rw [List.any_eq_false]
    intro r hmem
    simp [(hr r hmem).1, (hr r hmem).2.1, (hr r hmem).2.2.1]
  have h7 : hasInvalidItems d.purchase_records = false := by
    unfold hasInvalidItems
    rw [List.any_eq_false]
    intro r hmem
    have hx : ((r.items.getD []).any fun item =>
        !truthyS item.sku || !truthyQ item.quantity || !truthyQ item.sale_price) = false := by
      rw [List.any_eq_false]
      intro it hit
      simp [((hr r hmem).2.2.2 it hit).1, ((hr r hmem).2.2.2 it hit).2.1,
        ((hr r hmem).2.2.2 it hit).2.2]
    simp [hx]
  have hval : passesValidation d = true := by
    unfold passesValidation
    rw [h1, h2, h3, h4, h5, h6, h7]
    rfl
  exact ⟨hval, ⟨(finalStats d o).map formatStat, analyze_ok_of_valid d o hval⟩⟩

/-- Witness for the amended C6 at `dataC6W`, whose product has the
negative `purchase_price` -50. -/
theorem analyzeSalesData_structural_validation_amended_witness :
    passesValidation dataC6W = true ∧
    ∃ out : List OutputRecord, analyzeSalesData dataC6W optionsDefault = Except.ok out :=
  analyzeSalesData_structural_validation_amended dataC6W optionsDefault
    (by decide) (by decide) (by decide) (by decide)

/-- Counterexample to C9 as stated: the sellers list of `dataC9` contains
two entries with the same id `"s1"`; the accumulators (and output records)
are 1:1 with the entries, so their ids are NOT pairwise distinct. -/
theorem analyzeSalesData_duplicate_id_counterexample :
    dataC9.sellers.map Seller.id = [some "s1", some "s1"] ∧
    analyzeSalesData dataC9 optionsDefault = Except.ok [
      { seller_id := some "s1"
        name := "Ann Lee"
        revenue := JNum.num 200
        profit := 100
        sales_count := 1
        top_products := [("A", 2)]
        bonus := 15 },
      { seller_id := some "s1"
        name := "Bob Kim"
        revenue := JNum.num 0
        profit := 0
        sales_count := 0
        top_products := []
        bonus := 0 } ] ∧
    ¬ ([some "s1", some "s1"] : List (Option String)).Nodup := by
  refine ⟨by decide, ?_, by decide⟩
  rw [analyze_ok_of_valid dataC9 optionsDefault (by decide)]
  norm_num [finalStats, rankedStats, accumulatedStats, dataC9, initStats, mkIndex,
    processRecord, recordUpdate, processItem, updateFirst, truthyS, truthyQ,
    assignBonus, bonusUpdate, topProducts, formatStat, round2, jround2,
    addQty, sellerA, productA, itemA, recordA, JNum.addOpt, optionsDefault,
    calculateSimpleRevenue, calculateBonusByProfit, profitGE, qtyGE,
    List.enum, List.enumFrom, Function.comp,
    (by decide : ("A" : String) ≠ ""), (by decide : ("s1" : String) ≠ ""),
    (by decide : ("Ann" : String) ++ " " ++ "Lee" = "Ann Lee"),
    (by decide : ("Bob" : String) ++ " " ++ "Kim" = "Bob Kim")]

/-- C9 amended: the output records are 1:1 with the input sellers — their
id list is a permutation of the input id list — and they are pairwise
distinct whenever the input seller ids are pairwise distinct (with
duplicate input ids, duplicates survive into the output). -/
theorem analyzeSalesData_ids_amended (d : SalesData) (o : SalesOptions)
    (h : passesValidation d = true) :
    analyzeSalesData d o = Except.ok ((finalStats d o).map formatStat) ∧
    List.Perm (((finalStats d o).map formatStat).map OutputRecord.seller_id)
      (d.sellers.map Seller.id) ∧
    ((d.sellers.map Seller.id).Nodup →
      (((finalStats d o).map formatStat).map OutputRecord.seller_id).Nodup) := by
  have hids : ((finalStats d o).map formatStat).map OutputRecord.seller_id =
      (finalStats d o).map SellerStat.id := by
    rw [List.map_map]
    rfl
  have hfin : (finalStats d o).map SellerStat.id = (rankedStats d o).map SellerStat.id :=
    assignBonus_map_field o (rankedStats d o) SellerStat.id (fun _ _ _ => rfl)
  have hperm : List.Perm ((rankedStats d o).map SellerStat.id)
      ((accumulatedStats d o).map SellerStat.id) :=
    (List.perm_insertionSort profitGE (accumulatedStats d o)).map SellerStat.id
  have hacc := accumulatedStats_map_id d o
  refine ⟨analyze_ok_of_valid d o h, ?_, ?_⟩
  · rw [hids, hfin]
    exact hacc ▸ hperm
  · intro hnd
    rw [hids, hfin]
    apply (hperm.nodup_iff).mpr
    rw [hacc]
    exact hnd

/-- Witness for the amended C9 at `dataA` (distinct input ids). -/
theorem analyzeSalesData_ids_amended_witness :
    analyzeSalesData dataA optionsDefault =
      Except.ok ((finalStats dataA optionsDefault).map formatStat) ∧
    List.Perm (((finalStats dataA optionsDefault).map formatStat).map
      OutputRecord.seller_id) (dataA.sellers.map Seller.id) ∧
    ((dataA.sellers.map Seller.id).Nodup →
      (((finalStats dataA optionsDefault).map formatStat).map
        OutputRecord.seller_id).Nodup) :=
  analyzeSalesData_ids_amended dataA optionsDefault (by decide)

end SalesBonus
